import Mathlib

/-!
Verification of the JARVIS voice-command pipeline (Rust sources) against its
natural-language specification.  The Rust code is shallowly embedded: strings
are lists of characters, stateful modules become explicit state-passing
functions, fallible calls return `Except`, and the worker loops become step
functions over scripts of externally supplied events (microphone reads,
recognizer results, clock readings in milliseconds since session entry).
The `f64` ratio arithmetic of the source is embedded as exact rational
arithmetic over `ℚ`; all values involved are small exact rationals, far from
any rounding boundary of `f64`.
-/

namespace Jarvis

/-! ## Character and string primitives

The Rust code manipulates UTF-8 strings with `to_lowercase`, `trim`,
`replace`, `contains` and `split_whitespace`.  We embed strings as
`List Char` and reimplement these operations. -/

/-- Whitespace test used by `trim` and `split_whitespace` (the program's data
only ever contains the ASCII whitespace characters). -/
def isWS (c : Char) : Bool :=
  c = ' ' || c = '\t' || c = '\n' || c = '\r'

/-- Unicode lowercasing as performed by Rust `str::to_lowercase`, restricted
to the alphabets occurring in the program (ASCII letters and Russian
Cyrillic, including Ё); every other character is returned unchanged. -/
def rlower (c : Char) : Char :=
  if 65 ≤ c.toNat ∧ c.toNat ≤ 90 then Char.ofNat (c.toNat + 32)
  else if 0x410 ≤ c.toNat ∧ c.toNat ≤ 0x42F then Char.ofNat (c.toNat + 32)
  else if c.toNat = 0x401 then Char.ofNat 0x451
  else c

/-- Rust `str::to_lowercase`. -/
def lowerStr (s : List Char) : List Char :=
  s.map rlower

/-- Rust `str::trim`: drop leading and trailing whitespace. -/
def trimStr (s : List Char) : List Char :=
  ((s.dropWhile isWS).reverse.dropWhile isWS).reverse

/-- Index of the first occurrence of `pat` in `s` (Rust `str::find` for a
string pattern): `some i` when `pat` occurs starting at character position
`i`, `none` otherwise.  An empty pattern matches at position 0. -/
def firstIdx (pat : List Char) : List Char → Option Nat
  | [] => if pat.isPrefixOf ([] : List Char) then some 0 else none
  | c :: rest =>
    if pat.isPrefixOf (c :: rest) then some 0
    else (firstIdx pat rest).map (· + 1)

/-- Rust `str::contains` for a string pattern. -/
def containsSub (pat s : List Char) : Bool :=
  (firstIdx pat s).isSome

/-- Fuel-indexed worker for `replaceAll`; the fuel is an upper bound on the
number of characters still to be scanned, so `s.length` is always enough. -/
def replaceAllAux (pat : List Char) : Nat → List Char → List Char
  | 0, s => s
  | _ + 1, [] => []
  | fuel + 1, c :: rest =>
    if pat.isPrefixOf (c :: rest) then
      replaceAllAux pat fuel ((c :: rest).drop pat.length)
    else
      c :: replaceAllAux pat fuel rest

/-- Rust `str::replace(pat, "")`: a single left-to-right scan removing every
non-overlapping occurrence of `pat`.  On a match the scan resumes after the
matched characters, so occurrences newly formed by a removal are not removed.
An empty pattern is returned unchanged (never the case in the program). -/
def replaceAll (pat s : List Char) : List Char :=
  if pat = [] then s else replaceAllAux pat s.length s

/-- Worker for `splitWs`; `acc` holds the characters of the word currently
being read, in reverse. -/
def splitWsAux (acc : List Char) : List Char → List (List Char)
  | [] => if acc = [] then [] else [acc.reverse]
  | c :: rest =>
    if isWS c then
      if acc = [] then splitWsAux [] rest
      else acc.reverse :: splitWsAux [] rest
    else splitWsAux (c :: acc) rest

/-- Rust `str::split_whitespace`: the whitespace-separated words of `s`. -/
def splitWs (s : List Char) : List (List Char) :=
  splitWsAux [] s

/-! ## Configuration constants (`src-tauri/src/config/config.rs`) -/

/-- `config::VOSK_FETCH_PHRASE = "джарвис"`. -/
def VOSK_FETCH_PHRASE : List Char := "джарвис".data

/-- `config::VOSK_MIN_RATIO = 70.0` (an exact small rational). -/
def VOSK_MIN_RATIO_PCT : ℚ := 70

/-- `config::CMD_RATIO_THRESHOLD = 65f64` (an exact small rational). -/
def CMD_RATIO_THRESHOLD : ℚ := 65

/-- `config::CMS_WAIT_DELAY = Duration::from_secs(15)`, in milliseconds. -/
def CMS_WAIT_DELAY_MS : Nat := 15000

/-- `config::ASSISTANT_PHRASES_TBR`, the fixed ordered filler-phrase list
(wake word, honorifics, acknowledgement phrases), in source order. -/
def ASSISTANT_PHRASES_TBR : List (List Char) :=
  [ "джарвис".data, "сэр".data, "слушаю сэр".data, "всегда к услугам".data,
    "произнеси".data, "ответь".data, "покажи".data, "скажи".data,
    "давай".data, "да сэр".data, "к вашим услугам сэр".data,
    "всегда к вашим услугам сэр".data, "запрос выполнен сэр".data,
    "выполнен сэр".data, "есть".data, "загружаю сэр".data,
    "очень тонкое замечание сэр".data ]

/-! ## TextNormalizer
(`filter_recognized_text` in `gui/src-tauri/src/tauri_commands/listener.rs`,
identical to `filter_recognized_voice` in `src-tauri/src/app.rs`) -/

/-- The normalizer of the source: lowercase, then for each filler phrase in
order run `String::replace(phrase, "")`, finally trim. -/
def filter_recognized_text (text : List Char) : List Char :=
  trimStr (ASSISTANT_PHRASES_TBR.foldl (fun t p => replaceAll p t) (lowerStr text))

/-- Removal of only the first occurrence of `pat` (delete the match found by
`firstIdx` and keep everything after it). -/
def removeFirstOccurrence (pat s : List Char) : List Char :=
  match firstIdx pat s with
  | none => s
  | some i => s.take i ++ s.drop (i + pat.length)

/-- Normalizer following the specification text of claim C2 word for word:
lowercase, then for each filler phrase in the fixed ordered list remove only
the FIRST textual occurrence, finally trim. -/
def normalizerSpecFirstOnly (text : List Char) : List Char :=
  trimStr (ASSISTANT_PHRASES_TBR.foldl (fun t p => removeFirstOccurrence p t) (lowerStr text))

/-- Fuel-indexed worker for `removeEveryOccurrence`: repeatedly locate the
next occurrence with `firstIdx`, splice it out, and continue scanning after
the removed match. -/
def removePassAux (pat : List Char) : Nat → List Char → List Char
  | 0, s => s
  | fuel + 1, s =>
    match firstIdx pat s with
    | none => s
    | some i => s.take i ++ removePassAux pat fuel (s.drop (i + pat.length))

/-- Removal of every non-overlapping occurrence of `pat` in one left-to-right
pass, formulated by occurrence positions rather than by character recursion
(the amended reading of claim C2). -/
def removeEveryOccurrence (pat s : List Char) : List Char :=
  if pat = [] then s else removePassAux pat s.length s

/-- Normalizer under the amended claim C2: lowercase, then for each filler
phrase in order remove every non-overlapping occurrence in one pass, trim. -/
def normalizerAmended (text : List Char) : List Char :=
  trimStr (ASSISTANT_PHRASES_TBR.foldl (fun t p => removeEveryOccurrence p t) (lowerStr text))

/-! ## CommandMatcher

The matcher `fetch_command` is called from both orchestrators
(`assistant_commands::fetch_command` in the GUI crate, `commands::fetch_command`
in the desktop crate) but its defining source file is not part of this
repository snapshot, so it is modelled from the specification. -/

/-- A `CommandEntry` of the loaded command table (spec §3): stable key,
ordered trigger phrases, optional fuzzy-threshold override, chaining flag. -/
structure CommandEntry where
  key : String
  phrases : List (List Char)
  thresholdOverride : Option ℚ
  chaining : Bool
deriving DecidableEq

/-- Modelled from the spec: the number of whitespace-separated words of the
recognized text that are contained in the trigger phrase (token overlap). -/
def overlapCount (text phrase : List Char) : Nat :=
  ((splitWs text).filter (fun w => (splitWs phrase).contains w)).length

/-- Modelled from the spec: the similarity ratio between recognized text and
one trigger phrase — the fraction of words of the recognized text contained
in the phrase, scaled to 0–100.  `mkRat (100 * count) words` is exactly
`count / words * 100` as a rational (and 0 when there are no words). -/
def phraseRatioPct (text phrase : List Char) : ℚ :=
  mkRat ((100 * overlapCount text phrase : Nat) : Int) (splitWs text).length

/-- Modelled from the spec: an entry's effective threshold — its override if
present, else the global default `CMD_RATIO_THRESHOLD`. -/
def entryThreshold (e : CommandEntry) : ℚ :=
  e.thresholdOverride.getD CMD_RATIO_THRESHOLD

/-- Modelled from the spec: an entry matches when some trigger phrase reaches
the entry's effective threshold. -/
def entryMatches (text : List Char) (e : CommandEntry) : Bool :=
  e.phrases.any (fun p => decide (entryThreshold e ≤ phraseRatioPct text p))

/-- Modelled from the spec: `fetch_command` returns the first entry in table
order that matches, or nothing (source file of `fetch_command` missing from
the snapshot; spec §4.5). -/
def fetch_command (text : List Char) (cmds : List CommandEntry) : Option CommandEntry :=
  cmds.find? (entryMatches text)

/-! ## Vosk wake-word callback
(`vosk_callback` in `gui/src-tauri/src/tauri_commands/listener.rs`) -/

/-- The number of whitespace-separated words of `recognized` whose
lowercasing contains the substring `VOSK_FETCH_PHRASE`. -/
def jarvisWordCount (recognized : List Char) : Nat :=
  ((splitWs recognized).filter (fun w => containsSub VOSK_FETCH_PHRASE (lowerStr w))).length

/-- `vosk_callback`, reduced to its detection decision: a non-empty (after
trim) recognized utterance triggers the wake word when
`count / words * 100 ≥ VOSK_MIN_RATIO`.  The `f64` quotient is embedded as
the exact rational `mkRat (100 * count) words`; for `words = 0` both the
`f64` program value (NaN) and the rational (0) fail the comparison. -/
def vosk_callback_detects (recognized : List Char) : Bool :=
  if trimStr recognized = [] then false
  else
    decide (VOSK_MIN_RATIO_PCT ≤
      mkRat ((100 * jarvisWordCount recognized : Nat) : Int) (splitWs recognized).length)

/-! ## AwaitingCommand session loops

`voice_command_recognition` (GUI crate, `listener.rs`) and
`handle_voice_commands` (desktop crate, `app.rs`) both loop: read a frame,
run the recognizer, filter, match, execute, and check a 15-second timeout.
One loop iteration is embedded as a function of the externally supplied
events: the recognizer result for the frame, whether command execution would
fail, and the clock reading (ms since session entry) at the timeout check.
Neither loop keeps any timer state of its own: `start_time` is taken once at
session entry and never reassigned, so an iteration sees only the absolute
elapsed time. -/

/-- Result of one iteration of an AwaitingCommand loop. -/
inductive IterResult where
  | proceed : IterResult
  | exitIdle : IterResult
  | errout : String → IterResult
deriving DecidableEq

/-- One iteration of `voice_command_recognition` (GUI `listener.rs`, lines
428–465), given the recognizer output for this frame (`none` = no result),
whether `execute_command` would fail, the command table, and the elapsed
milliseconds at the bottom-of-loop timeout check.  A successful chained
command issues `continue` (skipping the timeout check); a non-chaining one
issues `break`; an execution failure propagates as an error; no match falls
through to the timeout check, as do empty and filtered-to-empty results. -/
def guiIterate (cmds : List CommandEntry) (recognized : Option (List Char))
    (execFails : Bool) (elapsedMs timeoutMs : Nat) : IterResult :=
  let viaText : Option IterResult :=
    match recognized with
    | none => none
    | some t =>
      if t = [] then none
      else
        let f := filter_recognized_text t
        if trimStr f = [] then none
        else
          match fetch_command f cmds with
          | none => none
          | some e =>
            if execFails then some (IterResult.errout "Failed to execute command")
            else if e.chaining then some IterResult.proceed
            else some IterResult.exitIdle
  match viaText with
  | some r => r
  | none => if elapsedMs > timeoutMs then IterResult.exitIdle else IterResult.proceed

/-- One iteration of `handle_voice_commands` (desktop `app.rs`, lines
90–165).  Differences from the GUI loop: the raw text is discarded when its
trim is empty; an execution failure is logged and `break`s (it does not
propagate); and a recognized text with NO matching command also `break`s
back to wake-word listening instead of falling through to the timeout
check. -/
def appIterate (cmds : List CommandEntry) (recognized : Option (List Char))
    (execFails : Bool) (elapsedMs timeoutMs : Nat) : IterResult :=
  let viaText : Option IterResult :=
    match recognized with
    | none => none
    | some t =>
      if trimStr t = [] then none
      else
        let f := filter_recognized_text t
        if trimStr f = [] then none
        else
          match fetch_command f cmds with
          | none => some IterResult.exitIdle
          | some e =>
            if execFails then some IterResult.exitIdle
            else if e.chaining then some IterResult.proceed
            else some IterResult.exitIdle
  match viaText with
  | some r => r
  | none => if elapsedMs > timeoutMs then IterResult.exitIdle else IterResult.proceed

/-- How an AwaitingCommand session ended when run over a finite script. -/
inductive SessionEnd where
  | idle : SessionEnd
  | errored : String → SessionEnd
  | scriptEnded : SessionEnd
deriving DecidableEq

/-- Run the GUI session loop over a script of per-iteration events
`(recognizer output, execution fails?, elapsed ms at the check)`.  The
elapsed values are absolute times since session entry, mirroring the single
`start_time = SystemTime::now()` taken when the session begins. -/
def runGuiSession (cmds : List CommandEntry) (timeoutMs : Nat) :
    List (Option (List Char) × Bool × Nat) → SessionEnd
  | [] => SessionEnd.scriptEnded
  | (r, ef, el) :: rest =>
    match guiIterate cmds r ef el timeoutMs with
    | IterResult.proceed => runGuiSession cmds timeoutMs rest
    | IterResult.exitIdle => SessionEnd.idle
    | IterResult.errout e => SessionEnd.errored e

/-! ## Listener control (`gui/src-tauri/src/tauri_commands/listener.rs`) -/

/-- Environment of a `start_listening` call: the outcome the selected
engine's initialization-and-recording path would produce if invoked. -/
structure StartEnv where
  engineStart : Except String Bool

/-- `start_listening`, lines 91–122: the reentrancy guard followed by engine
dispatch.  Returns the Tauri command result and whether the engine
init/recording path ran (i.e. whether a worker could have been started). -/
def start_listening (listening : Bool) (env : StartEnv) : Except String Bool × Bool :=
  if listening then (Except.error "Already listening", false)
  else (env.engineStart, true)

/-- `stop_listening`, lines 39–59, together with `stop_recording`, lines
310–318.  `listening` is the LISTENING flag at entry; `observedStop` tells
whether the 5-second poll observed the worker clear the flag cooperatively;
`forcedDeviceStop` is the outcome `recorder::stop_recording` would produce
on the forced path.  Returns the call result and the final LISTENING flag:
on the forced path the flag is cleared only AFTER the device stop succeeds —
a failing device stop returns the error with the flag still set. -/
def stop_listening (listening observedStop : Bool)
    (forcedDeviceStop : Except String Unit) : Except String Bool × Bool :=
  if listening then
    if observedStop then (Except.ok true, false)
    else
      match forcedDeviceStop with
      | Except.ok _ => (Except.ok true, false)
      | Except.error e => (Except.error ("Failed to stop recording: " ++ e), true)
  else (Except.ok true, false)

/-- Externally observable events of one wake-word capture-loop iteration:
the STOP_LISTENING flag at the loop head, the microphone read result, and
the detector/recognizer callback result for the frame. -/
structure FrameEv where
  stop : Bool
  readRes : Except String Unit
  cbRes : Except String Unit

/-- `recording_loop`, lines 293–307: run until the stop flag is observed
(script exhaustion also models the flag being set).  A failing microphone
read propagates as an error; a failing `data_callback` is only logged and
the loop continues with the next frame. -/
def recording_loop : List FrameEv → Except String Bool
  | [] => Except.ok true
  | ev :: rest =>
    if ev.stop then Except.ok true
    else
      match ev.readRes with
      | Except.error e => Except.error ("Failed to read microphone: " ++ e)
      | Except.ok _ => recording_loop rest

/-! ## Recorder (`src-tauri/src/audio/recorder.rs`) -/

/-- `config::structs::RecorderType`. -/
inductive RecorderKind where
  | pvRecorder : RecorderKind
  | portaudioK : RecorderKind
  | cpalK : RecorderKind
deriving DecidableEq

/-- The recorder module's process-wide state: the two atomic flags, the two
`OnceCell`s, and a count of microphone-resource allocations (calls to
`pvrecorder::init_microphone`), used to observe idempotency. -/
structure RecState where
  initialized : Bool
  recording : Bool
  kind : Option RecorderKind
  frameLen : Option Nat
  allocCount : Nat
deriving DecidableEq

/-- The recorder state at process start: nothing set. -/
def freshRecState : RecState :=
  { initialized := false, recording := false, kind := none,
    frameLen := none, allocCount := 0 }

/-- `recorder::init`, lines 19–56 (with `init_pvrecorder`, lines 66–92):
an early success return when already initialized; otherwise select
PvRecorder, set the `OnceCell`s, read the microphone index from the DB
(`micIndex = none` models an uninitialized DB) and allocate the microphone
(`pvInitRes` is the device outcome; each successful allocation bumps
`allocCount`). -/
def recorder_init (st : RecState) (micIndex : Option Int)
    (pvInitRes : Except String Unit) : Except String Unit × RecState :=
  if st.initialized then (Except.ok (), st)
  else
    match st.kind with
    | some _ => (Except.error "RECORDER_TYPE already set", st)
    | none =>
      let st1 : RecState := { st with kind := some RecorderKind.pvRecorder }
      match st1.frameLen with
      | some _ => (Except.error "FRAME_LENGTH already set", st1)
      | none =>
        let st2 : RecState := { st1 with frameLen := some 512 }
        match micIndex with
        | none => (Except.error "Database not initialized", st2)
        | some _ =>
          match pvInitRes with
          | Except.error e => (Except.error ("PvRecorder error: " ++ e), st2)
          | Except.ok _ =>
            let st3 : RecState :=
              { st2 with initialized := true, allocCount := st2.allocCount + 1 }
            (Except.ok (), st3)

/-- `recorder::read_microphone`, lines 105–137, with `ensure_initialized`,
lines 95–102.  Returns the call result and whether a device read was
performed (`pvrecorder::read_microphone` reached).  Not initialized or not
recording short-circuits into an error without touching the device. -/
def read_microphone (st : RecState) (pvReadRes : Except String Unit) :
    Except String Unit × Bool :=
  if !st.initialized then
    (Except.error "Recorder not initialized. Call init() first", false)
  else if !st.recording then
    (Except.error "Recording not started. Call start_recording() first", false)
  else
    match st.kind with
    | none => (Except.error "Recorder type not set", false)
    | some RecorderKind.pvRecorder =>
      match pvReadRes with
      | Except.ok _ => (Except.ok (), true)
      | Except.error e => (Except.error ("PvRecorder read error: " ++ e), true)
    | some RecorderKind.portaudioK => (Except.error "PortAudio not implemented", false)
    | some RecorderKind.cpalK =>
      (Except.error "CPAL should be used via callback assignment", false)

/-! ## Helper lemmas about the string primitives -/

theorem firstIdx_nil_of_ne {pat : List Char} (hp : pat ≠ []) :
    firstIdx pat [] = none := by
  cases pat with
  | nil => exact absurd rfl hp
  | cons a l => rfl

theorem firstIdx_cons_pos {pat : List Char} {c : Char} {rest : List Char}
    (h : pat.isPrefixOf (c :: rest) = true) :
    firstIdx pat (c :: rest) = some 0 := by
  unfold firstIdx
  rw [if_pos h]

theorem firstIdx_cons_neg {pat : List Char} {c : Char} {rest : List Char}
    (h : pat.isPrefixOf (c :: rest) = false) :
    firstIdx pat (c :: rest) = (firstIdx pat rest).map (· + 1) := by
  have e : firstIdx pat (c :: rest) =
      (if pat.isPrefixOf (c :: rest) = true then some 0
       else (firstIdx pat rest).map (· + 1)) := rfl
  rw [e, if_neg (by simp [h])]

theorem firstIdx_some_ne_nil {pat s : List Char} {i : Nat} (hp : pat ≠ [])
    (h : firstIdx pat s = some i) : s ≠ [] := by
  intro hs
  rw [hs, firstIdx_nil_of_ne hp] at h
  cases h

/-- Matching `replaceAllAux` never runs out of fuel: when no occurrence of a
non-empty pattern exists, the scan returns the input unchanged. -/
theorem replaceAllAux_of_none {pat : List Char} (_hp : pat ≠ []) :
    ∀ (s : List Char) (fuel : Nat), firstIdx pat s = none →
      replaceAllAux pat fuel s = s := by
  intro s
  induction s with
  | nil => intro fuel _; cases fuel <;> rfl
  | cons c rest ih =>
    intro fuel h
    have hcp : pat.isPrefixOf (c :: rest) = false := by
      cases hq : pat.isPrefixOf (c :: rest) with
      | false => rfl
      | true => rw [firstIdx_cons_pos hq] at h; cases h
    have hrest : firstIdx pat rest = none := by
      rw [firstIdx_cons_neg hcp] at h
      exact Option.map_eq_none'.mp h
    cases fuel with
    | zero => rfl
    | succ g => simp [replaceAllAux, hcp, ih g hrest]

/-- The fuel of `removePassAux` is irrelevant once it reaches the input
length (for a non-empty pattern). -/
theorem removePassAux_irrel {pat : List Char} (hp : pat ≠ []) :
    ∀ (f1 f2 : Nat) (s : List Char), s.length ≤ f1 → s.length ≤ f2 →
      removePassAux pat f1 s = removePassAux pat f2 s := by
  have hp1 : 1 ≤ pat.length := by
    cases pat with
    | nil => exact absurd rfl hp
    | cons a l => simp
  intro f1
  induction f1 with
  | zero =>
    intro f2 s h1 h2
    have hs : s = [] := List.eq_nil_of_length_eq_zero (Nat.le_zero.mp h1)
    subst hs
    cases f2 with
    | zero => rfl
    | succ g2 => simp [removePassAux, firstIdx_nil_of_ne hp]
  | succ g ih =>
    intro f2 s h1 h2
    cases f2 with
    | zero =>
      have hs : s = [] := List.eq_nil_of_length_eq_zero (Nat.le_zero.mp h2)
      subst hs
      simp [removePassAux, firstIdx_nil_of_ne hp]
    | succ g2 =>
      simp only [removePassAux]
      cases hfi : firstIdx pat s with
      | none => rfl
      | some i =>
        dsimp only
        have hdrop : (s.drop (i + pat.length)).length ≤ g := by
          have := List.length_drop (i + pat.length) s
          have hslen : s.length ≤ g + 1 := h1
          omega
        have hdrop2 : (s.drop (i + pat.length)).length ≤ g2 := by
          have := List.length_drop (i + pat.length) s
          have hslen : s.length ≤ g2 + 1 := h2
          omega
        rw [ih g2 (s.drop (i + pat.length)) hdrop hdrop2]

/-- The character-by-character scan of Rust `replace` agrees with the
occurrence-splicing formulation, given enough fuel. -/
theorem replaceAllAux_eq_removePassAux {pat : List Char} (hp : pat ≠ []) :
    ∀ (fuel : Nat) (s : List Char), s.length ≤ fuel →
      replaceAllAux pat fuel s = removePassAux pat fuel s := by
  have hp1 : 1 ≤ pat.length := by
    cases pat with
    | nil => exact absurd rfl hp
    | cons a l => simp
  intro fuel
  induction fuel with
  | zero =>
    intro s h
    have hs : s = [] := List.eq_nil_of_length_eq_zero (Nat.le_zero.mp h)
    subst hs
    rfl
  | succ g ih =>
    intro s h
    cases s with
    | nil => simp [replaceAllAux, removePassAux, firstIdx_nil_of_ne hp]
    | cons c rest =>
      by_cases hcp : pat.isPrefixOf (c :: rest) = true
      · have hfi : firstIdx pat (c :: rest) = some 0 := firstIdx_cons_pos hcp
        have hdrop : ((c :: rest).drop pat.length).length ≤ g := by
          have hld : ((c :: rest).drop pat.length).length = rest.length + 1 - pat.length := by
            rw [List.length_drop]
            simp
          have hslen : rest.length + 1 ≤ g + 1 := by simp at h; omega
          omega
        simp only [replaceAllAux, hcp, if_true, removePassAux, hfi]
        rw [ih ((c :: rest).drop pat.length) hdrop]
        simp
      · have hcpf : pat.isPrefixOf (c :: rest) = false := by
          cases hq : pat.isPrefixOf (c :: rest) with
          | false => rfl
          | true => exact absurd hq hcp
        have hfi := firstIdx_cons_neg hcpf
        have hrl : rest.length ≤ g := by simpa using Nat.succ_le_succ_iff.mp h
        cases hrest : firstIdx pat rest with
        | none =>
          have hnone : firstIdx pat (c :: rest) = none := by
            rw [hfi, hrest]; rfl
          simp only [replaceAllAux, hcpf, Bool.false_eq_true, if_false, removePassAux, hnone]
          rw [replaceAllAux_of_none hp rest g hrest]
        | some i =>
          have hsome : firstIdx pat (c :: rest) = some (i + 1) := by
            rw [hfi, hrest]; rfl
          have hrne : rest ≠ [] := firstIdx_some_ne_nil hp hrest
          have hrpos : 1 ≤ rest.length := List.length_pos.mpr hrne
          cases g with
          | zero => omega
          | succ g2 =>
            have hdl : (rest.drop (i + pat.length)).length ≤ g2 := by
              have := List.length_drop (i + pat.length) rest
              omega
            have hdl2 : (rest.drop (i + pat.length)).length ≤ g2 + 1 := Nat.le_succ_of_le hdl
            have e1 : replaceAllAux pat (g2 + 1 + 1) (c :: rest) =
                c :: replaceAllAux pat (g2 + 1) rest := by
              have e : replaceAllAux pat (g2 + 1 + 1) (c :: rest) =
                  (if pat.isPrefixOf (c :: rest) = true then
                    replaceAllAux pat (g2 + 1) ((c :: rest).drop pat.length)
                  else c :: replaceAllAux pat (g2 + 1) rest) := rfl
              rw [e, if_neg hcp]
            have e3 : removePassAux pat (g2 + 1) rest =
                rest.take i ++ removePassAux pat g2 (rest.drop (i + pat.length)) := by
              have e : removePassAux pat (g2 + 1) rest =
                  (match firstIdx pat rest with
                   | none => rest
                   | some j => rest.take j ++
                       removePassAux pat g2 (rest.drop (j + pat.length))) := rfl
              rw [e, hrest]
            have e4 : removePassAux pat g2 (rest.drop (i + pat.length)) =
                removePassAux pat (g2 + 1) (rest.drop (i + pat.length)) :=
              removePassAux_irrel hp g2 (g2 + 1) (rest.drop (i + pat.length)) hdl hdl2
            have e5 : removePassAux pat (g2 + 1 + 1) (c :: rest) =
                (c :: rest).take (i + 1) ++
                  removePassAux pat (g2 + 1) ((c :: rest).drop (i + 1 + pat.length)) := by
              have e : removePassAux pat (g2 + 1 + 1) (c :: rest) =
                  (match firstIdx pat (c :: rest) with
                   | none => c :: rest
                   | some j => (c :: rest).take j ++
                       removePassAux pat (g2 + 1) ((c :: rest).drop (j + pat.length))) := rfl
              rw [e, hsome]
            have hdropc : (c :: rest).drop (i + 1 + pat.length) = rest.drop (i + pat.length) := by
              have e : i + 1 + pat.length = (i + pat.length) + 1 := by omega
              rw [e, List.drop_succ_cons]
            rw [e1, ih rest hrl, e3, e4, e5, hdropc, List.take_succ_cons]
            simp

/-- Rust `str::replace(pat, "")` equals the occurrence-splicing removal of
every non-overlapping occurrence. -/
theorem replaceAll_eq_removeEvery (pat s : List Char) :
    replaceAll pat s = removeEveryOccurrence pat s := by
  unfold replaceAll removeEveryOccurrence
  by_cases hp : pat = []
  · simp [hp]
  · simp only [hp, if_false]
    exact replaceAllAux_eq_removePassAux hp s.length s (Nat.le_refl _)

/-! ## Claim theorems -/

/-- A command-table entry used in concrete session runs: one trigger phrase
"включи музыку", no threshold override, chaining enabled. -/
def musicEntry : CommandEntry :=
  { key := "media_music", phrases := ["включи музыку".data],
    thresholdOverride := none, chaining := true }

/-- C1 (amended): with a non-empty recognized text whose normalization is
non-empty and matches no command entry, the GUI session loop
(`voice_command_recognition`) stays in AwaitingCommand and exits to Idle
exactly when the elapsed time since session entry exceeds the 15 s timeout
(the timer is never reassigned); the desktop loop (`handle_voice_commands`),
however, breaks back to Idle immediately in that situation. -/
theorem c1_noMatch_session_behavior (cmds : List CommandEntry) (t : List Char)
    (ef : Bool) (el : Nat)
    (ht : t ≠ []) (htr : trimStr t ≠ [])
    (hf : trimStr (filter_recognized_text t) ≠ [])
    (hn : fetch_command (filter_recognized_text t) cmds = none) :
    guiIterate cmds (some t) ef el CMS_WAIT_DELAY_MS =
      (if el > CMS_WAIT_DELAY_MS then IterResult.exitIdle else IterResult.proceed) ∧
    appIterate cmds (some t) ef el CMS_WAIT_DELAY_MS = IterResult.exitIdle := by
  constructor
  · simp only [guiIterate, if_neg ht, if_neg hf, hn]
  · simp only [appIterate, if_neg htr, if_neg hf, hn]

/-- Witness for C1's amended theorem at a concrete no-match input. -/
theorem c1_noMatch_session_behavior_witness :
    guiIterate [] (some "привет".data) false 0 CMS_WAIT_DELAY_MS =
      (if 0 > CMS_WAIT_DELAY_MS then IterResult.exitIdle else IterResult.proceed) ∧
    appIterate [] (some "привет".data) false 0 CMS_WAIT_DELAY_MS = IterResult.exitIdle :=
  c1_noMatch_session_behavior [] "привет".data false 0
    (by decide) (by decide) (by decide) rfl

/-- C1 counterexample to the claim as stated: in `handle_voice_commands`
(`app.rs`), a non-empty recognized-and-normalized text matching no command
sends the session back to Idle at once — here at 0 ms elapsed, far below the
15 s timeout — instead of remaining in AwaitingCommand. -/
theorem c1_app_noMatch_exits_early :
    appIterate [] (some "привет".data) false 0 CMS_WAIT_DELAY_MS = IterResult.exitIdle ∧
    ¬ (0 > CMS_WAIT_DELAY_MS) := by
  constructor
  · decide
  · decide

/-- C2 (amended): the normalizer case-folds to lowercase, then for each
filler phrase of the fixed ordered list removes, in one left-to-right pass,
EVERY non-overlapping textual occurrence of the phrase (plain substring
removal, not word-boundary-aware), and finally trims; no occurrence of a
phrase found by the single pass survives it.  Stated as the equality of the
source normalizer (built on Rust `replace`) with the occurrence-splicing
formulation `normalizerAmended`. -/
theorem c2_normalizer_removes_every_occurrence (text : List Char) :
    filter_recognized_text text = normalizerAmended text := by
  unfold filter_recognized_text normalizerAmended
  have e : (fun (t p : List Char) => replaceAll p t) =
      (fun (t p : List Char) => removeEveryOccurrence p t) :=
    funext fun t => funext fun p => replaceAll_eq_removeEvery p t
  rw [e]

/-- C2 counterexample to the claim as stated: on the input "сэр сэр" the
source normalizer removes BOTH occurrences of the filler phrase "сэр"
(yielding the empty string), while the claimed first-occurrence-only
algorithm would leave the second occurrence (yielding "сэр"). -/
theorem c2_first_occurrence_refuted :
    filter_recognized_text "сэр сэр".data = [] ∧
    normalizerSpecFirstOnly "сэр сэр".data = "сэр".data ∧
    filter_recognized_text "сэр сэр".data ≠ normalizerSpecFirstOnly "сэр сэр".data := by
  refine ⟨by decide, by decide, by decide⟩

/-- C5: first-match semantics of the (spec-modelled) matcher.  For every
normalized text and table: `fetch_command` returns `some e` exactly when the
table splits as `pre ++ e :: post` with every earlier entry failing its
threshold test and `e` passing it (so entries after the first passing one
are never compared), and returns `none` exactly when no entry reaches its
threshold (entry override if present, else the global default 65). -/
theorem c5_matcher_first_match (text : List Char) (cmds : List CommandEntry) :
    (∀ e : CommandEntry,
      fetch_command text cmds = some e ↔
        entryMatches text e = true ∧
        ∃ pre post, cmds = pre ++ e :: post ∧
          ∀ x ∈ pre, entryMatches text x = false) ∧
    (fetch_command text cmds = none ↔ ∀ x ∈ cmds, entryMatches text x = false) := by
  constructor
  · intro e
    rw [fetch_command, List.find?_eq_some]
    simp
  · rw [fetch_command, List.find?_eq_none]
    simp

/-- C10: Vosk wake-word detection fires on a recognized utterance that is
non-empty after trimming exactly when at least 70 percent of its
whitespace-separated words contain the substring "джарвис" after
lowercasing; in particular the single word "джарвис" triggers detection, and
"джарвис" followed by two other words does not (ratio 33 percent). -/
theorem c10_vosk_threshold :
    (∀ r : List Char,
      vosk_callback_detects r = true ↔
        (trimStr r ≠ [] ∧ (splitWs r).length ≠ 0 ∧
          70 * (splitWs r).length ≤ 100 * jarvisWordCount r)) ∧
    vosk_callback_detects "джарвис".data = true ∧
    vosk_callback_detects "джарвис раз два".data = false := by
  refine ⟨?_, by decide, by decide⟩
  intro r
  unfold vosk_callback_detects
  by_cases h : trimStr r = []
  · simp [h]
  · rw [if_neg h, decide_eq_true_iff]
    rw [Rat.mkRat_eq_divInt, Rat.divInt_eq_div]
    rcases Nat.eq_zero_or_pos (splitWs r).length with hl | hl
    · rw [hl]
      simp [VOSK_MIN_RATIO_PCT, h]
    · have hlq : (0 : ℚ) < (((splitWs r).length : ℤ) : ℚ) := by exact_mod_cast hl
      rw [le_div_iff₀ hlq]
      simp only [VOSK_MIN_RATIO_PCT]
      constructor
      · intro hle
        refine ⟨h, by omega, ?_⟩
        have : ((70 * (splitWs r).length : ℕ) : ℚ) ≤ ((100 * jarvisWordCount r : ℕ) : ℚ) := by
          push_cast
          push_cast at hle
          linarith
        exact_mod_cast this
      · rintro ⟨-, -, hle⟩
        have : ((70 * (splitWs r).length : ℕ) : ℚ) ≤ ((100 * jarvisWordCount r : ℕ) : ℚ) := by
          exact_mod_cast hle
        push_cast at this
        push_cast
        linarith

/-- C3: the code at the failing input.  A chaining command ("включи музыку")
executed successfully 10 s into the session leaves the loop running
(`continue`), but the loop keeps the original `start_time`: at the next
frame, 16 s after session entry (only 6 s after the command), the timeout
check fires and the session ends in Idle.  The inline comment in `app.rs`
("сбрасываем таймер") and the spec promise a fresh full 15 s window after a
chained command; no timer reset exists in either loop. -/
theorem c3_chain_no_timer_reset :
    guiIterate [musicEntry] (some "включи музыку".data) false 10000 CMS_WAIT_DELAY_MS =
      IterResult.proceed ∧
    runGuiSession [musicEntry] CMS_WAIT_DELAY_MS
      [(some "включи музыку".data, false, 10000), (none, false, 16000)] =
      SessionEnd.idle := by
  constructor
  · decide
  · decide

/-- C4 (amended): a start-listening request issued while the orchestrator is
already listening returns the error "Already listening" — not success — and
never runs the engine initialization/recording path, so no duplicate worker
is started, whatever that path would have produced. -/
theorem c4_start_while_listening (env : StartEnv) :
    start_listening true env = (Except.error "Already listening", false) := by
  simp [start_listening]

/-- C4 counterexample to the claim as stated: with an engine path that would
succeed, `start_listening` during active listening still reports an error
rather than returning success. -/
theorem c4_claimed_success_refuted :
    start_listening true { engineStart := Except.ok true } =
      (Except.error "Already listening", false) := rfl

/-- C6: a per-frame `data_callback` failure (detector or recognizer error)
never terminates `recording_loop`: when the stop flag is unset and the
microphone read succeeds, the iteration's outcome is that of the remaining
frames, whatever the callback result was. -/
theorem c6_callback_error_not_fatal (ev : FrameEv) (rest : List FrameEv)
    (hstop : ev.stop = false) (hread : ev.readRes = Except.ok ()) :
    recording_loop (ev :: rest) = recording_loop rest := by
  simp [recording_loop, hstop, hread]

/-- Witness for C6 at a frame whose callback fails. -/
theorem c6_callback_error_not_fatal_witness :
    recording_loop [⟨false, Except.ok (), Except.error "Porcupine processing error"⟩] =
      recording_loop [] :=
  c6_callback_error_not_fatal
    ⟨false, Except.ok (), Except.error "Porcupine processing error"⟩ [] rfl rfl

/-- C7 (amended): whenever `stop_listening` returns success, the LISTENING
flag is false — this covers the cooperative path and the forced path with a
slow-but-successful device stop; but when the forced device stop fails, the
call returns an error and the flag remains set. -/
theorem c7_stop_clears_flag_on_success (l o : Bool) (d : Except String Unit)
    (h : ∃ v, (stop_listening l o d).1 = Except.ok v) :
    (stop_listening l o d).2 = false := by
  obtain ⟨v, hv⟩ := h
  by_cases hl : l
  · by_cases ho : o
    · simp [stop_listening, hl, ho]
    · cases d with
      | ok u => simp [stop_listening, hl, ho]
      | error e => simp [stop_listening, hl, ho] at hv
  · simp [stop_listening, hl]

/-- Witness for C7's amended theorem on the forced path with a successful
device stop. -/
theorem c7_stop_clears_flag_on_success_witness :
    (stop_listening true false (Except.ok ())).2 = false :=
  c7_stop_clears_flag_on_success true false (Except.ok ()) ⟨true, rfl⟩

/-- C7 counterexample to the claim as stated: on the forced-stop path with a
failing device stop, `stop_listening` returns with the LISTENING flag still
true, so `is_listening()` is not false after the call. -/
theorem c7_forced_stop_failure_keeps_flag :
    (stop_listening true false (Except.error "device stop failed")).2 = true := rfl

/-- C8: recorder `init` idempotency.  If a call to `recorder::init` succeeds
with resulting module state `st1`, any later call from `st1` succeeds again
and leaves the state — including the allocation count — untouched: the second
call is an early-return no-op, not an error and not a reallocation. -/
theorem c8_init_idempotent (st : RecState) (mic : Option Int)
    (pv : Except String Unit) (mic2 : Option Int) (pv2 : Except String Unit)
    (st1 : RecState) (h : recorder_init st mic pv = (Except.ok (), st1)) :
    recorder_init st1 mic2 pv2 = (Except.ok (), st1) := by
  have hinit : st1.initialized = true := by
    rcases st with ⟨si, sr, sk, sf, sa⟩
    cases si <;> cases sk <;> cases sf <;> cases mic <;> cases pv <;>
      simp_all [recorder_init]
    all_goals rw [← h]
  simp [recorder_init, hinit]

/-- Witness for C8: initialize from the fresh state, then call again. -/
theorem c8_init_idempotent_witness :
    recorder_init ⟨true, false, some RecorderKind.pvRecorder, some 512, 1⟩
      (some 0) (Except.ok ()) =
      (Except.ok (), ⟨true, false, some RecorderKind.pvRecorder, some 512, 1⟩) :=
  c8_init_idempotent freshRecState (some 0) (Except.ok ()) (some 0) (Except.ok ())
    ⟨true, false, some RecorderKind.pvRecorder, some 512, 1⟩ rfl

/-- C9: calling `read_microphone` when the recorder is not initialized, or
when recording has not been started, yields an error (an
initialization/recording-failed error) and performs no device read; the
embedding is a total function, mirroring that the Rust code returns `Err`
rather than panicking on this contract violation. -/
theorem c9_read_requires_recording (st : RecState) (pv : Except String Unit)
    (h : st.initialized = false ∨ st.recording = false) :
    ∃ msg, read_microphone st pv = (Except.error msg, false) := by
  cases h with
  | inl h1 =>
    exact ⟨"Recorder not initialized. Call init() first", by simp [read_microphone, h1]⟩
  | inr h2 =>
    by_cases h1 : st.initialized
    · exact ⟨"Recording not started. Call start_recording() first",
        by simp [read_microphone, h1, h2]⟩
    · exact ⟨"Recorder not initialized. Call init() first",
        by simp [read_microphone, h1]⟩

/-- Witness for C9 at the fresh (uninitialized) recorder state. -/
theorem c9_read_requires_recording_witness :
    ∃ msg, read_microphone freshRecState (Except.ok ()) = (Except.error msg, false) :=
  c9_read_requires_recording freshRecState (Except.ok ()) (Or.inl rfl)

end Jarvis

